import Mathlib

/-!
Verification development for the polytrader workflow engine
(`src/backend/src/polytrader/graph.py`, `tools.py`, `state.py`,
`configuration.py`).

The Python code is shallowly embedded:
* Python/JSON values are modelled by `PyVal` (dicts restricted to string
  keys, which covers every dict literal built by the source).
* An operation that can raise a Python exception is modelled as an
  `Option`-valued function, `none` meaning "raises".
* External collaborators (the Gamma market client, the CLOB client, the
  Exa search provider, `json.loads`, `float` on strings) are passed in as
  function arguments, so every theorem quantifies over their behaviour.
* Numbers are modelled by `ℚ`.
-/

set_option maxHeartbeats 1000000

namespace Polytrader

/-- Model of a Python value as produced by JSON tool-call arguments and the
market APIs.  Dicts are restricted to string keys (all dict literals in the
source have string keys). -/
inductive PyVal where
  | pynone : PyVal
  | pybool : Bool → PyVal
  | pynum : ℚ → PyVal
  | pystr : String → PyVal
  | pylist : List PyVal → PyVal
  | pyodict : List (String × PyVal) → PyVal

/-- `d.get(k)` / `k in d` on a string-keyed dict (first binding wins; dicts
coming from Python have unique keys). -/
def dGet (d : List (String × PyVal)) (k : String) : Option PyVal :=
  (d.find? (fun p => p.1 == k)).map (fun p => p.2)

/-- `d.get(k, v)` on a string-keyed dict. -/
def dGetD (d : List (String × PyVal)) (k : String) (v : PyVal) : PyVal :=
  (dGet d k).getD v

/-- `d[k] = v`: replace the first binding of `k`, or append a new one. -/
def dSet : List (String × PyVal) → String → PyVal → List (String × PyVal)
  | [], k, v => [(k, v)]
  | p :: rest, k, v => if p.1 == k then (k, v) :: rest else p :: dSet rest k v

/-- `d[k]` subscription on a string-keyed dict: `KeyError` (modelled as
`none`) when the key is absent. -/
def dGetItem (d : List (String × PyVal)) (k : String) : Option PyVal :=
  dGet d k

/-- Python `str(v)`.  The exact rendering of numbers and containers is
irrelevant to every claim below; only the fact that the result is a string
matters. -/
def pyStrOf : PyVal → String
  | .pynone => "None"
  | .pybool b => if b then "True" else "False"
  | .pynum q => toString q
  | .pystr s => s
  | .pylist _ => "[...]"
  | .pyodict _ => "{...}"

/-- Python truthiness (`bool(v)`). -/
def pyTruthy : PyVal → Bool
  | .pynone => false
  | .pybool b => b
  | .pynum q => q != 0
  | .pystr s => s.length != 0
  | .pylist l => !l.isEmpty
  | .pyodict l => !l.isEmpty

/-- Python iteration `for x in v`: lists yield elements, strings yield
one-character strings, dicts yield their keys, everything else raises
`TypeError` (`none`). -/
def pyIter : PyVal → Option (List PyVal)
  | .pylist l => some l
  | .pystr s => some (s.toList.map (fun c => .pystr (String.mk [c])))
  | .pyodict l => some (l.map (fun p => .pystr p.1))
  | _ => none

/-- Python `float(v)`, with `fs` abstracting the numeric-string parser.
`bool` is a numeric type in Python (`float(True) = 1.0`). -/
def pyFloat (fs : String → Option ℚ) : PyVal → Option ℚ
  | .pynum q => some q
  | .pybool b => some (if b then 1 else 0)
  | .pystr s => fs s
  | _ => none

/-- Python `v == s` for a string literal `s`: values of other types are
simply unequal (no exception). -/
def pyEqStr : PyVal → String → Bool
  | .pystr t, s => t == s
  | _, _ => false

/-- Python `v != 0`: numbers compare numerically, `bool` is numeric
(`False == 0`), any other type is unequal to `0`. -/
def pyNeIntZero : PyVal → Bool
  | .pynum q => q != 0
  | .pybool b => b
  | _ => true

/-- Python `v > r` against a float `r`: defined for numbers and bools,
`TypeError` (`none`) for every other type. -/
def pyGtNum : PyVal → ℚ → Option Bool
  | .pynum q, r => some (decide (r < q))
  | .pybool b, r => some (decide (r < (if b then (1 : ℚ) else 0)))
  | _, _ => none

/-- `positions.get(key, 0)` where `positions : Dict[str, float]`.  Lists and
dicts are unhashable, so using one as a key raises `TypeError` (`none`);
hashable non-string keys simply miss and yield the default `0`. -/
def positionsGet (positions : List (String × ℚ)) : PyVal → Option ℚ
  | .pylist _ => none
  | .pyodict _ => none
  | .pystr s => some ((((positions.find? (fun p => p.1 == s))).map (fun p => p.2)).getD 0)
  | _ => some 0

/-- `positions.get(s, 0)` for a string key, over the optional positions map
(used to state the SELL legality condition). -/
def posLookup (positions : Option (List (String × ℚ))) (s : String) : ℚ :=
  (((positions.getD []).find? (fun p => p.1 == s)).map (fun p => p.2)).getD 0

/-- Default of `Configuration.max_loops` (`configuration.py`). -/
def defaultMaxLoops : ℕ := 6

/-! ## Trade-phase side selection (`trade_agent_node`, graph.py 596-607)

`position_info = state.positions or {}` followed by
`user_has_positions = any(position_info.values())`: `any` uses float
truthiness, i.e. it is true as soon as some held size is nonzero. -/

/-- The `possible_sides` list computed by `trade_agent_node` before each
trade-phase executor call. -/
def possibleSides (positions : Option (List (String × ℚ))) : List String :=
  let position_info := positions.getD []
  let user_has_positions := position_info.any (fun p => p.2 != 0)
  if user_has_positions then ["BUY", "SELL", "NO_TRADE"] else ["BUY", "NO_TRADE"]

/-! ## Terminal-tool-call filtering (graph.py 164-173, 431-443, 702-709)

Each executor node scans `response.tool_calls` for the phase's terminal
tool; when found it keeps only the tool calls bearing the terminal name.
Tool calls are identified here by their names (the arguments play no role
in the filtering). -/

/-- The filtering each executor applies to the names of the tool calls of
one LLM turn. -/
def filterTerminalCalls (terminal : String) (toolCallNames : List String) : List String :=
  if toolCallNames.contains terminal then
    toolCallNames.filter (fun n => n == terminal)
  else toolCallNames

/-- Research-phase filtering (terminal tool `ExternalResearchInfo`). -/
def researchFilteredCalls : List String → List String :=
  filterTerminalCalls "ExternalResearchInfo"

/-- Analysis-phase filtering (terminal tool `AnalysisInfo`). -/
def analysisFilteredCalls : List String → List String :=
  filterTerminalCalls "AnalysisInfo"

/-- Trade-phase filtering (terminal tool `TradeDecision`). -/
def tradeFilteredCalls : List String → List String :=
  filterTerminalCalls "TradeDecision"

/-! ## Tool registries bound to each executor (graph.py 149-153, 418-425,
696, 980-1007) -/

/-- Tools bound in `research_agent_node` (`search_tavily` is commented out
in the source). -/
def researchAgentBoundTools : List String :=
  ["search_exa", "ExternalResearchInfo"]

/-- Tools bound in `analysis_agent_node`. -/
def analysisAgentBoundTools : List String :=
  ["analysis_get_market_details", "analysis_get_multi_level_orderbook",
   "analysis_get_historical_trends", "analysis_get_external_news",
   "analysis_get_market_trades", "AnalysisInfo"]

/-- Tools bound in `trade_agent_node`: `model.bind_tools([trade, trade_decision_tool])`. -/
def tradeAgentBoundTools : List String :=
  ["trade", "TradeDecision"]

/-- Tools wrapped by the `trade_tools` `ToolNode` (graph.py 1005-1007). -/
def tradeToolsNodeTools : List String :=
  ["trade"]

/-! ## Claim C3 -/

/-- Helper: `List.any` over pairs is true iff some member has nonzero value. -/
theorem any_nonzero_iff (l : List (String × ℚ)) :
    l.any (fun p => p.2 != 0) = true ↔ ∃ p ∈ l, p.2 ≠ 0 := by
  simp [List.any_eq_true]

/-- C3 (amended): `SELL` is offered to the trade executor iff the positions
map holds some nonzero size; it is omitted exactly when the map is absent,
empty, or all-zero.  In particular a map whose sizes are all zero yields
only `BUY` and `NO_TRADE`; but a negative held size counts as "has
positions" and makes `SELL` available. -/
theorem sell_offered_iff_nonzero_position :
    (∀ positions : Option (List (String × ℚ)),
      ("SELL" ∈ possibleSides positions ↔ ∃ p ∈ positions.getD [], p.2 ≠ 0)) ∧
    (∀ positions : Option (List (String × ℚ)),
      (∀ p ∈ positions.getD [], p.2 = 0) →
        possibleSides positions = ["BUY", "NO_TRADE"]) := by
  constructor
  · intro positions
    rw [← any_nonzero_iff]
    unfold possibleSides
    cases h : (positions.getD []).any (fun p => p.2 != 0) <;> simp [h]
  · intro positions hall
    unfold possibleSides
    have : (positions.getD []).any (fun p => p.2 != 0) = false := by
      rw [← Bool.not_eq_true, any_nonzero_iff]
      push_neg
      exact hall
    simp [this]

/-- Witness for C3's amended theorem at concrete inputs. -/
theorem sell_offered_iff_nonzero_position_check :
    possibleSides (some [("tok", (0 : ℚ))]) = ["BUY", "NO_TRADE"] :=
  sell_offered_iff_nonzero_position.2 (some [("tok", 0)]) (by decide)

/-- C3 counterexample: with `positions = {"tok": -1.0}` every held size is
non-positive, yet the code offers `SELL` (`any` tests nonzero-ness, not
positivity). -/
theorem sell_offered_for_negative_position :
    "SELL" ∈ possibleSides (some [("tok", (-1 : ℚ))]) ∧ ((-1 : ℚ) ≤ 0) := by
  constructor
  · decide
  · norm_num

/-! ## Claim C4 -/

/-- Helper: after filtering, only the terminal name survives whenever it was
present. -/
theorem filterTerminalCalls_only_terminal (terminal : String) (tcs : List String)
    (h : terminal ∈ tcs) : ∀ n ∈ filterTerminalCalls terminal tcs, n = terminal := by
  intro n hn
  unfold filterTerminalCalls at hn
  rw [if_pos (List.elem_eq_true_of_mem h)] at hn
  exact (by simpa using (List.mem_filter.mp hn).2)

/-- C4: in every phase, if an executor turn contains a call to the phase's
terminal tool, then after the executor's filtering every remaining tool
call is the terminal one. -/
theorem terminal_call_filtering_keeps_only_terminal :
    (∀ tcs : List String, "ExternalResearchInfo" ∈ tcs →
      ∀ n ∈ researchFilteredCalls tcs, n = "ExternalResearchInfo") ∧
    (∀ tcs : List String, "AnalysisInfo" ∈ tcs →
      ∀ n ∈ analysisFilteredCalls tcs, n = "AnalysisInfo") ∧
    (∀ tcs : List String, "TradeDecision" ∈ tcs →
      ∀ n ∈ tradeFilteredCalls tcs, n = "TradeDecision") :=
  ⟨fun tcs h => filterTerminalCalls_only_terminal _ tcs h,
   fun tcs h => filterTerminalCalls_only_terminal _ tcs h,
   fun tcs h => filterTerminalCalls_only_terminal _ tcs h⟩

/-- Witness for C4 at a concrete turn mixing a search call with the
terminal research call. -/
theorem terminal_call_filtering_keeps_only_terminal_check :
    researchFilteredCalls ["search_exa", "ExternalResearchInfo"] = ["ExternalResearchInfo"] := by
  have h := terminal_call_filtering_keeps_only_terminal.1
      ["search_exa", "ExternalResearchInfo"] (by decide)
  decide

/-! ## Claim C7 -/

/-- C7 counterexample: the trade executor does not bind a single tool; it
binds two, and the non-terminal `trade` tool is among them. -/
theorem trade_phase_not_single_tool :
    tradeAgentBoundTools.length = 2 ∧ "trade" ∈ tradeAgentBoundTools ∧
      "trade" ≠ "TradeDecision" := by
  decide

/-- C7 (amended): the trade-phase executor binds exactly the auxiliary
`trade` tool and the terminal `TradeDecision` tool, and the `trade_tools`
node wraps exactly the `trade` tool. -/
theorem trade_phase_binds_trade_and_decision_tools :
    tradeAgentBoundTools = ["trade", "TradeDecision"] ∧
    "TradeDecision" ∈ tradeAgentBoundTools ∧
    tradeToolsNodeTools = ["trade"] := by
  decide

/-! ## Trade reflection: deterministic field check (graph.py 745-830)

`reflect_on_trade_node` runs the structured-output judge, then the
`required_fields` loop and the three side-specific checks, and combines
them: `final_is_satisfactory = response.is_satisfactory and is_valid`.
The node returns `decision = "end"` on acceptance and
`decision = "trade_more"` on rejection.  The side-specific checks compare
Python values with `>` so they can raise `TypeError` (modelled by `none`). -/

/-- `lambda x: x in ["BUY", "SELL", "NO_TRADE"]`. -/
def sideValidator (v : PyVal) : Bool :=
  pyEqStr v "BUY" || pyEqStr v "SELL" || pyEqStr v "NO_TRADE"

/-- `lambda x: isinstance(x, str) and len(x) > 0`. -/
def reasonValidator : PyVal → Bool
  | .pystr s => decide (0 < s.length)
  | _ => false

/-- `lambda x: isinstance(x, (int, float)) and 0 <= float(x) <= 1`
(`bool` is an `int` in Python and `float(b) ∈ {0, 1}`). -/
def confidenceValidator : PyVal → Bool
  | .pynum q => decide (0 ≤ q) && decide (q ≤ 1)
  | .pybool _ => true
  | _ => false

/-- `lambda x: isinstance(x, str)`. -/
def strValidator : PyVal → Bool
  | .pystr _ => true
  | _ => false

/-- `lambda x: isinstance(x, (int, float))`. -/
def sizeValidator : PyVal → Bool
  | .pynum _ => true
  | .pybool _ => true
  | _ => false

/-- The `required_fields` table of `reflect_on_trade_node`. -/
def requiredTradeFields : List (String × (PyVal → Bool)) :=
  [("side", sideValidator), ("reason", reasonValidator),
   ("confidence", confidenceValidator), ("market_id", strValidator),
   ("token_id", strValidator), ("size", sizeValidator)]

/-- One iteration of the `required_fields` loop: a missing key or an
explicit `None` fails (`value is None`), otherwise the field validator
decides. -/
def requiredFieldOk (d : List (String × PyVal)) (k : String)
    (validator : PyVal → Bool) : Bool :=
  match dGet d k with
  | none => false
  | some .pynone => false
  | some v => validator v

/-- The whole `required_fields` loop leaves `is_valid` true iff every field
passes. -/
def requiredFieldsOk (d : List (String × PyVal)) : Bool :=
  requiredTradeFields.all (fun p => requiredFieldOk d p.1 p.2)

/-- `if side_val == "NO_TRADE" and size_val != 0` (never raises: Python
`!=` across types is total). -/
def noTradeCheck (d : List (String × PyVal)) : Bool :=
  !(pyEqStr (dGetD d "side" (.pystr "")) "NO_TRADE" &&
    pyNeIntZero (dGetD d "size" (.pynum 0)))

/-- `if side_val == "BUY": if size_val is not None and size_val > available_funds`.
The `>` against the float budget raises `TypeError` for non-numeric sizes. -/
def buyCheck (d : List (String × PyVal)) (funds : ℚ) : Option Bool :=
  if pyEqStr (dGetD d "side" (.pystr "")) "BUY" then
    match dGetD d "size" (.pynum 0) with
    | .pynone => some true
    | v => (pyGtNum v funds).map (fun g => !g)
  else some true

/-- `not state.positions or state.positions.get(token_val, 0) <= 0`
evaluated for a SELL candidate: the falsy-positions test short-circuits
before the `get`, which itself raises for unhashable token ids. -/
def sellPositionsCheck (tok : PyVal) : Option (List (String × ℚ)) → Option Bool
  | none => some false
  | some ps =>
    if ps.isEmpty then some false
    else (positionsGet ps tok).map (fun q => decide (0 < q))

/-- `if side_val == "SELL": ...` of `reflect_on_trade_node`. -/
def sellCheck (d : List (String × PyVal))
    (positions : Option (List (String × ℚ))) : Option Bool :=
  if pyEqStr (dGetD d "side" (.pystr "")) "SELL" then
    sellPositionsCheck (dGetD d "token_id" (.pystr "")) positions
  else some true

/-- The deterministic part of `reflect_on_trade_node`: `is_valid` after the
`required_fields` loop and the three side checks; `none` when a check
raises.  A missing candidate (`trade_info is None`) is invalid. -/
def deterministicTradeCheck : Option (List (String × PyVal)) →
    Option (List (String × ℚ)) → ℚ → Option Bool
  | none, _, _ => some false
  | some d, positions, funds =>
    (buyCheck d funds).bind (fun c2 =>
      (sellCheck d positions).bind (fun c3 =>
        some (requiredFieldsOk d && noTradeCheck d && c2 && c3)))

/-- The accept/reject decision of `reflect_on_trade_node`: `"end"` iff the
judge's verdict AND the deterministic check both hold, `"trade_more"`
otherwise; `none` when the deterministic check raises. -/
def reflectOnTradeDecision (verdict : Bool)
    (positions : Option (List (String × ℚ))) (funds : ℚ)
    (trade_info : Option (List (String × PyVal))) : Option String :=
  (deterministicTradeCheck trade_info positions funds).map
    (fun valid => if verdict && valid then "end" else "trade_more")

/-! ## Claim C1 -/

/-- Helper: unpack a successful `deterministicTradeCheck` into its four
conjuncts. -/
theorem deterministicTradeCheck_eq_some (d : List (String × PyVal))
    (positions : Option (List (String × ℚ))) (funds : ℚ) (b : Bool)
    (h : deterministicTradeCheck (some d) positions funds = some b) :
    ∃ c2 c3, buyCheck d funds = some c2 ∧ sellCheck d positions = some c3 ∧
      b = (requiredFieldsOk d && noTradeCheck d && c2 && c3) := by
  simp only [deterministicTradeCheck] at h
  cases h2 : buyCheck d funds with
  | none => rw [h2] at h; simp at h
  | some c2 =>
    cases h3 : sellCheck d positions with
    | none => rw [h2, h3] at h; simp at h
    | some c3 =>
      rw [h2, h3] at h
      simp at h
      exact ⟨c2, c3, rfl, rfl, h.symm⟩

/-- C1 (amended): the final accept/reject decision of the trade reflection
step equals the logical AND of the judge's verdict and the deterministic
check, whenever that check completes without raising; the check itself
rejects a missing candidate, a `NO_TRADE` candidate with nonzero size, a
`BUY` candidate whose numeric size exceeds the available funds, a `SELL`
candidate whose token has no positive held position, and any missing,
`None`, or ill-typed required field.  (A `BUY` candidate whose size is a
present, non-`None`, non-numeric value — and a `SELL` candidate with an
unhashable token id while positions are non-empty — makes the check raise
`TypeError` instead of rejecting; see the counterexample.) -/
theorem trade_reflection_validates_legality :
    (∀ (verdict : Bool) (positions : Option (List (String × ℚ))) (funds : ℚ)
        (info : Option (List (String × PyVal))) (b : Bool),
      deterministicTradeCheck info positions funds = some b →
        reflectOnTradeDecision verdict positions funds info =
          some (if verdict && b then "end" else "trade_more")) ∧
    (∀ (positions : Option (List (String × ℚ))) (funds : ℚ),
      deterministicTradeCheck none positions funds = some false) ∧
    (∀ (d : List (String × PyVal)) (positions : Option (List (String × ℚ)))
        (funds : ℚ) (b : Bool),
      deterministicTradeCheck (some d) positions funds = some b →
      pyEqStr (dGetD d "side" (.pystr "")) "NO_TRADE" = true →
      pyNeIntZero (dGetD d "size" (.pynum 0)) = true → b = false) ∧
    (∀ (d : List (String × PyVal)) (positions : Option (List (String × ℚ)))
        (funds : ℚ) (b : Bool) (q : ℚ),
      deterministicTradeCheck (some d) positions funds = some b →
      dGetD d "side" (.pystr "") = .pystr "BUY" →
      dGetD d "size" (.pynum 0) = .pynum q → funds < q → b = false) ∧
    (∀ (d : List (String × PyVal)) (positions : Option (List (String × ℚ)))
        (funds : ℚ) (b : Bool) (s : String),
      deterministicTradeCheck (some d) positions funds = some b →
      dGetD d "side" (.pystr "") = .pystr "SELL" →
      dGetD d "token_id" (.pystr "") = .pystr s →
      posLookup positions s ≤ 0 → b = false) ∧
    (∀ (d : List (String × PyVal)) (positions : Option (List (String × ℚ)))
        (funds : ℚ) (b : Bool) (p : String × (PyVal → Bool)),
      deterministicTradeCheck (some d) positions funds = some b →
      p ∈ requiredTradeFields → requiredFieldOk d p.1 p.2 = false → b = false) := by
  refine ⟨?_, ?_, ?_, ?_, ?_, ?_⟩
  · intro verdict positions funds info b h
    unfold reflectOnTradeDecision
    rw [h]
    rfl
  · intro positions funds
    rfl
  · intro d positions funds b h hside hsize
    obtain ⟨c2, c3, _, _, hb⟩ := deterministicTradeCheck_eq_some d positions funds b h
    have : noTradeCheck d = false := by
      unfold noTradeCheck
      rw [hside, hsize]
      rfl
    simp [hb, this]
  · intro d positions funds b q h hside hsize hq
    obtain ⟨c2, c3, h2, _, hb⟩ := deterministicTradeCheck_eq_some d positions funds b h
    have : c2 = false := by
      unfold buyCheck at h2
      rw [hside, hsize] at h2
      simp [pyEqStr, pyGtNum, hq] at h2
      exact h2
    simp [hb, this]
  · intro d positions funds b s h hside htok hpos
    obtain ⟨c2, c3, _, h3, hb⟩ := deterministicTradeCheck_eq_some d positions funds b h
    have : c3 = false := by
      unfold sellCheck at h3
      rw [hside, htok] at h3
      simp only [pyEqStr, beq_self_eq_true, if_pos] at h3
      cases positions with
      | none =>
        simp only [sellPositionsCheck] at h3
        exact (Option.some.inj h3).symm
      | some ps =>
        by_cases hemp : ps.isEmpty
        · simp only [sellPositionsCheck, if_pos hemp] at h3
          exact (Option.some.inj h3).symm
        · simp only [sellPositionsCheck, if_neg hemp] at h3
          have hpg : positionsGet ps (PyVal.pystr s) =
              some (((ps.find? (fun p => p.1 == s)).map (fun p => p.2)).getD 0) := rfl
          rw [hpg] at h3
          have h3i : decide (0 < ((ps.find? (fun p => p.1 == s)).map (fun p => p.2)).getD 0)
              = c3 := Option.some.inj h3
          have hval : (((ps.find? (fun p => p.1 == s)).map (fun p => p.2)).getD 0) ≤ 0 := by
            unfold posLookup at hpos
            simpa using hpos
          rw [← h3i]
          exact decide_eq_false (not_lt.mpr hval)
    simp [hb, this]
  · intro d positions funds b p h hp hfail
    obtain ⟨c2, c3, _, _, hb⟩ := deterministicTradeCheck_eq_some d positions funds b h
    have : requiredFieldsOk d = false := by
      unfold requiredFieldsOk
      rw [← Bool.not_eq_true, List.all_eq_true]
      intro hall
      have := hall p hp
      rw [hfail] at this
      exact Bool.false_ne_true this
    simp [hb, this]

/-- A well-typed `NO_TRADE` candidate used to exercise the theorem. -/
def dNoTradeGood : List (String × PyVal) :=
  [("side", .pystr "NO_TRADE"), ("market_id", .pystr "511396"),
   ("token_id", .pystr "123"), ("size", .pynum 0),
   ("reason", .pystr "stay flat"), ("confidence", .pynum (mkRat 1 2))]

/-- Witness for C1's amended theorem: a satisfactory verdict together with a
passing deterministic check yields `"end"` at a concrete candidate. -/
theorem trade_reflection_validates_legality_check :
    reflectOnTradeDecision true none 10 (some dNoTradeGood) = some "end" := by
  have h := trade_reflection_validates_legality.1 true none 10 (some dNoTradeGood)
      true (by decide)
  simpa using h

/-- An ill-typed candidate: `side = "BUY"` with a string-valued `size`. -/
def dBuyStringSize : List (String × PyVal) :=
  [("side", .pystr "BUY"), ("market_id", .pystr "511396"),
   ("token_id", .pystr "123"), ("size", .pystr "10"),
   ("reason", .pystr "looks cheap"), ("confidence", .pynum (mkRat 1 2))]

/-- C1 counterexample: an artifact with an ill-typed required field
(`size` is a string) and `side = "BUY"` is NOT rejected even under a
satisfactory verdict — the deterministic check raises `TypeError` on
`size_val > state.available_funds` (modelled by `none`), so the node never
produces the `"trade_more"` rejection the claim promises. -/
theorem trade_reflection_buy_string_size_raises :
    reflectOnTradeDecision true none 10 (some dBuyStringSize) = none ∧
    requiredFieldOk dBuyStringSize "size" sizeValidator = false ∧
    reflectOnTradeDecision true none 10 (some dBuyStringSize) ≠ some "trade_more" := by
  refine ⟨rfl, rfl, ?_⟩
  intro h
  rw [show reflectOnTradeDecision true none 10 (some dBuyStringSize) = none from rfl] at h
  exact Option.noConfusion h

/-! ## Validator output schemas (graph.py 186-199, 457-469, 566-578)

`InfoIsSatisfactory`, `AnalysisIsSatisfactory` and `TradeIsSatisfactory`
are pydantic models with identical fields: `reason: List[str]`,
`is_satisfactory: bool`, `improvement_instructions: Optional[str] = None`.
The "at least 3 reasons" and "provide improvement instructions when
unsatisfactory" requirements appear only in the field *descriptions*
(prompt text); no validator enforces them. -/

/-- The value of a validated reflection model. -/
structure ReflectionOutput where
  reason : List String
  is_satisfactory : Bool
  improvement_instructions : Option String
  deriving DecidableEq

/-- Elementwise `str` validation of a list value. -/
def strList : List PyVal → Option (List String)
  | [] => some []
  | .pystr s :: tl => (strList tl).map (fun r => s :: r)
  | _ :: _ => none

/-- `List[str]` field validation. -/
def parseStringList : PyVal → Option (List String)
  | .pylist l => strList l
  | _ => none

/-- `bool` field validation. -/
def parseBoolField : Option PyVal → Option Bool
  | some (.pybool b) => some b
  | _ => none

/-- `Optional[str] = None` field validation: absent or `None` defaults to
`None`. -/
def parseOptStrField : Option PyVal → Option (Option String)
  | none => some none
  | some .pynone => some none
  | some (.pystr s) => some (some s)
  | _ => none

/-- Validation of the shared reflection-model schema: exactly the typing
constraints pydantic enforces. -/
def parseReflectionOutput (d : List (String × PyVal)) : Option ReflectionOutput := do
  let r ← (dGet d "reason").bind parseStringList
  let s ← parseBoolField (dGet d "is_satisfactory")
  let ii ← parseOptStrField (dGet d "improvement_instructions")
  some ⟨r, s, ii⟩

/-- `InfoIsSatisfactory` (research validator). -/
def parseInfoIsSatisfactory : List (String × PyVal) → Option ReflectionOutput :=
  parseReflectionOutput

/-- `AnalysisIsSatisfactory` (analysis validator). -/
def parseAnalysisIsSatisfactory : List (String × PyVal) → Option ReflectionOutput :=
  parseReflectionOutput

/-- `TradeIsSatisfactory` (trade validator). -/
def parseTradeIsSatisfactory : List (String × PyVal) → Option ReflectionOutput :=
  parseReflectionOutput

/-! ## Claim C8 -/

/-- Helper: a validated string list really was a list of string values. -/
theorem strList_shape (l : List PyVal) (r : List String)
    (h : strList l = some r) : l = r.map PyVal.pystr := by
  induction l generalizing r with
  | nil =>
    simp only [strList] at h
    simp [← Option.some.inj h]
  | cons x tl ih =>
    cases x with
    | pystr s =>
      simp only [strList] at h
      cases htl : strList tl with
      | none => rw [htl] at h; exact absurd h (by simp)
      | some tr =>
        rw [htl] at h
        have hr : s :: tr = r := by simpa using h
        subst hr
        simp [ih tr htl]
    | pynone => exact absurd h (by simp [strList])
    | pybool b => exact absurd h (by simp [strList])
    | pynum q => exact absurd h (by simp [strList])
    | pylist l2 => exact absurd h (by simp [strList])
    | pyodict l2 => exact absurd h (by simp [strList])

/-- Helper: a validated `List[str]` field really was a list of strings. -/
theorem parseStringList_shape (v : PyVal) (r : List String)
    (h : parseStringList v = some r) : v = .pylist (r.map PyVal.pystr) := by
  cases v with
  | pylist l =>
    simp only [parseStringList] at h
    exact congrArg PyVal.pylist (strList_shape l r h)
  | pynone => exact absurd h (by simp [parseStringList])
  | pybool b => exact absurd h (by simp [parseStringList])
  | pynum q => exact absurd h (by simp [parseStringList])
  | pystr s => exact absurd h (by simp [parseStringList])
  | pyodict l => exact absurd h (by simp [parseStringList])

/-- A degenerate but schema-valid validator output: zero reasons,
unsatisfactory, no improvement instructions. -/
def degenerateReflectionDict : List (String × PyVal) :=
  [("reason", .pylist []), ("is_satisfactory", .pybool false)]

/-- C8 (amended): every validator output, for all three phases, carries a
list of string reasons and a boolean satisfactory verdict, with the
improvement instructions an optional string — but only these typing
constraints are enforced: the schema also accepts an unsatisfactory output
with fewer than 3 reasons and no improvement instructions (the "≥ 3
reasons" and "instructions when unsatisfactory" requirements live only in
the prompt-facing field descriptions). -/
theorem reflection_schema_enforces_types_only :
    (∀ (d : List (String × PyVal)) (o : ReflectionOutput),
      parseInfoIsSatisfactory d = some o ∨ parseAnalysisIsSatisfactory d = some o ∨
        parseTradeIsSatisfactory d = some o →
      dGet d "reason" = some (.pylist (o.reason.map PyVal.pystr)) ∧
      dGet d "is_satisfactory" = some (.pybool o.is_satisfactory)) ∧
    (∃ o : ReflectionOutput,
      parseTradeIsSatisfactory degenerateReflectionDict = some o ∧
      o.reason.length < 3 ∧ o.is_satisfactory = false ∧
      o.improvement_instructions = none) := by
  constructor
  · intro d o ho
    have h : parseReflectionOutput d = some o := by
      rcases ho with h | h | h <;> exact h
    simp only [parseReflectionOutput, Option.bind_eq_bind, Option.bind_eq_some] at h
    obtain ⟨r, hr, s, hs, ii, hii, heq⟩ := h
    obtain ⟨v, hv, hps⟩ := hr
    have hro : o = ⟨r, s, ii⟩ := by
      cases o
      exact (by simpa using heq.symm)
    subst hro
    constructor
    · show dGet d "reason" = some (.pylist (r.map PyVal.pystr))
      rw [hv, parseStringList_shape v r hps]
    · show dGet d "is_satisfactory" = some (.pybool s)
      cases hg : dGet d "is_satisfactory" with
      | none =>
        rw [hg] at hs
        exact absurd hs (by simp [parseBoolField])
      | some v =>
        rw [hg] at hs
        cases v with
        | pybool b =>
          simp only [parseBoolField, Option.some.injEq] at hs
          rw [hs]
        | pynone => exact absurd hs (by simp [parseBoolField])
        | pynum q => exact absurd hs (by simp [parseBoolField])
        | pystr t => exact absurd hs (by simp [parseBoolField])
        | pylist l => exact absurd hs (by simp [parseBoolField])
        | pyodict l => exact absurd hs (by simp [parseBoolField])
  · exact ⟨⟨[], false, none⟩, rfl, by decide, rfl, rfl⟩

/-- A fully-populated validator output used as witness input. -/
def fullReflectionDict : List (String × PyVal) :=
  [("reason", .pylist [.pystr "a", .pystr "b", .pystr "c"]),
   ("is_satisfactory", .pybool true)]

/-- Witness for C8's amended theorem at a concrete validator output. -/
theorem reflection_schema_enforces_types_only_check :
    dGet fullReflectionDict "reason" =
      some (.pylist ((["a", "b", "c"] : List String).map PyVal.pystr)) ∧
    dGet fullReflectionDict "is_satisfactory" = some (.pybool true) :=
  reflection_schema_enforces_types_only.1 fullReflectionDict
    ⟨["a", "b", "c"], true, none⟩ (Or.inl rfl)

/-- C8 counterexample: the research validator's schema accepts an output
with zero reasons (fewer than the claimed minimum of 3), an unsatisfactory
verdict, and no improvement instructions. -/
theorem reflection_accepts_degenerate_output :
    parseInfoIsSatisfactory degenerateReflectionDict = some ⟨[], false, none⟩ ∧
    ¬ (3 ≤ ([] : List String).length) := by
  exact ⟨rfl, by decide⟩

/-! ## Market-snapshot fetch (graph.py 51-93) and its routing (868-874)

`fetch_market_data` parses the market id with `int(...)`, calls the Gamma
client, stringifies the `id` field, and replaces `clobTokenIds` by
`[str(tid) for tid in json.loads(...)]`.  Every failure (missing id, bad
format, provider exception, `json.loads` failure, non-iterable loads
result) leaves `market_data` unset and returns `proceed = False`.  The
external collaborators — the Gamma client and `json.loads` — are passed in
as functions; `none` models a raised exception. -/

/-- ASCII whitespace, for `int(...)`'s tolerance of surrounding blanks. -/
def isSpaceChar (c : Char) : Bool :=
  c == ' ' || c == '\t' || c == '\n' || c == '\r'

/-- Strip leading and trailing whitespace from a character list. -/
def trimChars (l : List Char) : List Char :=
  ((l.dropWhile isSpaceChar).reverse.dropWhile isSpaceChar).reverse

/-- Python `int(s)` for strings: optional surrounding whitespace, optional
sign, then decimal digits (a faithful-enough subset; underscores are not
modelled).  `none` models `ValueError`. -/
def pyParseInt (s : String) : Option Int :=
  match trimChars s.toList with
  | [] => none
  | c :: rest =>
    let signed := c == '-' || c == '+'
    let digits := if signed then rest else c :: rest
    if digits.isEmpty then none
    else if digits.all (fun c2 => c2.isDigit) then
      let n : ℕ := digits.foldl (fun acc c2 => acc * 10 + (c2.toNat - 48)) 0
      some (if c == '-' then -(n : Int) else (n : Int))
    else none

/-- The update returned by `fetch_market_data`: `market_data = none` means
the returned dict has no `market_data` key (the state channel keeps its
previous value). -/
structure FetchResult where
  proceed : Bool
  market_data : Option (List (String × PyVal))

/-- `if "id" in market_json: market_json["id"] = str(market_json["id"])`. -/
def stringifyId (mj : List (String × PyVal)) : List (String × PyVal) :=
  match dGet mj "id" with
  | some v => dSet mj "id" (.pystr (pyStrOf v))
  | none => mj

/-- `if "clobTokenIds" in market_json: market_json["clobTokenIds"] =
[str(tid) for tid in json.loads(market_json["clobTokenIds"])]`, then the
success return; `json.loads` failure or a non-iterable loads result raises
into the surrounding `except` (no `market_data` stored). -/
def convertMarketJson (loads : PyVal → Option PyVal)
    (mj1 : List (String × PyVal)) : FetchResult :=
  match dGet mj1 "clobTokenIds" with
  | none => ⟨true, some mj1⟩
  | some v =>
    match loads v with
    | none => ⟨false, none⟩
    | some parsed =>
      match pyIter parsed with
      | none => ⟨false, none⟩
      | some elems =>
        ⟨true, some (dSet mj1 "clobTokenIds"
          (.pylist (elems.map (fun e => .pystr (pyStrOf e)))))⟩

/-- `fetch_market_data`, with `getMarket` the Gamma client and `loads`
modelling `json.loads` on the `clobTokenIds` value. -/
def fetch_market_data (getMarket : Int → Option (List (String × PyVal)))
    (loads : PyVal → Option PyVal) (market_id : Option String) : FetchResult :=
  match market_id with
  | none => ⟨false, none⟩
  | some mid =>
    match pyParseInt mid with
    | none => ⟨false, none⟩
    | some n =>
      match getMarket n with
      | none => ⟨false, none⟩
      | some mj => convertMarketJson loads (stringifyId mj)

/-- Helper: reading back the key just written. -/
theorem dGet_dSet_same (d : List (String × PyVal)) (k : String) (v : PyVal) :
    dGet (dSet d k v) k = some v := by
  induction d with
  | nil => simp [dSet, dGet]
  | cons p rest ih =>
    by_cases h : p.1 == k
    · simp [dSet, h, dGet]
    · simp only [dSet, h, Bool.false_eq_true, if_false]
      simpa [dGet, h] using ih

/-- Helper: writing one key leaves the others unchanged. -/
theorem dGet_dSet_other (d : List (String × PyVal)) (k k' : String) (v : PyVal)
    (hne : k ≠ k') : dGet (dSet d k v) k' = dGet d k' := by
  have hkk : (k == k') = false := beq_eq_false_iff_ne.mpr hne
  induction d with
  | nil => simp [dSet, dGet, List.find?, hkk]
  | cons p rest ih =>
    by_cases h : p.1 == k
    · have hpk : p.1 = k := by simpa using h
      simp [dSet, h, dGet, List.find?, hpk, hkk]
    · simp only [dSet, h, Bool.false_eq_true, if_false]
      by_cases h2 : p.1 == k'
      · simp [dGet, List.find?, h2]
      · simp only [dGet, List.find?, h2] at ih ⊢
        exact ih

/-! ## Claim C9 -/

/-- Helper: after `stringifyId`, any present `id` field is a string. -/
theorem stringifyId_id_string (mj : List (String × PyVal)) :
    ∀ v, dGet (stringifyId mj) "id" = some v → ∃ s, v = .pystr s := by
  intro v hv
  unfold stringifyId at hv
  cases hmj : dGet mj "id" with
  | none =>
    rw [hmj] at hv
    change dGet mj "id" = some v at hv
    rw [hmj] at hv
    exact Option.noConfusion hv
  | some w =>
    rw [hmj] at hv
    change dGet (dSet mj "id" (.pystr (pyStrOf w))) "id" = some v at hv
    rw [dGet_dSet_same] at hv
    exact ⟨pyStrOf w, (Option.some.inj hv).symm⟩

/-- Helper: the snapshot stored by `convertMarketJson` keeps string `id`s
and turns `clobTokenIds` into a list of strings. -/
theorem convertMarketJson_shape (loads : PyVal → Option PyVal)
    (mj1 : List (String × PyVal)) (md : List (String × PyVal))
    (hid : ∀ v, dGet mj1 "id" = some v → ∃ s, v = .pystr s)
    (h : (convertMarketJson loads mj1).market_data = some md) :
    (∀ v, dGet md "id" = some v → ∃ s, v = .pystr s) ∧
    (∀ v, dGet md "clobTokenIds" = some v →
      ∃ elems, v = .pylist elems ∧ ∀ x ∈ elems, ∃ s, x = .pystr s) := by
  unfold convertMarketJson at h
  split at h
  · rename_i hc
    have hmd : mj1 = md := Option.some.inj h
    subst hmd
    refine ⟨hid, ?_⟩
    intro v hv
    rw [hc] at hv
    exact Option.noConfusion hv
  · rename_i v0 hc
    split at h
    · exact Option.noConfusion h
    · rename_i parsed hl
      split at h
      · exact Option.noConfusion h
      · rename_i elems hi
        have hmd : dSet mj1 "clobTokenIds"
            (.pylist (elems.map (fun e => .pystr (pyStrOf e)))) = md :=
          Option.some.inj h
        subst hmd
        constructor
        · intro v hv
          rw [dGet_dSet_other _ _ _ _ (by decide)] at hv
          exact hid v hv
        · intro v hv
          rw [dGet_dSet_same] at hv
          refine ⟨elems.map (fun e => .pystr (pyStrOf e)), (Option.some.inj hv).symm, ?_⟩
          intro x hx
          obtain ⟨e, _, hxe⟩ := List.mem_map.mp hx
          exact ⟨pyStrOf e, hxe.symm⟩

/-- C9: however the Gamma client and `json.loads` behave, whenever
`fetch_market_data` stores a snapshot, the stored `id` field (if present)
is a string and the stored `clobTokenIds` field (if present) is a list
whose every element is a string — large numeric identifiers are never kept
as integers. -/
theorem market_data_ids_are_strings
    (getMarket : Int → Option (List (String × PyVal)))
    (loads : PyVal → Option PyVal) (market_id : Option String)
    (md : List (String × PyVal))
    (h : (fetch_market_data getMarket loads market_id).market_data = some md) :
    (∀ v, dGet md "id" = some v → ∃ s, v = .pystr s) ∧
    (∀ v, dGet md "clobTokenIds" = some v →
      ∃ elems, v = .pylist elems ∧ ∀ x ∈ elems, ∃ s, x = .pystr s) := by
  unfold fetch_market_data at h
  split at h
  · exact Option.noConfusion h
  · split at h
    · exact Option.noConfusion h
    · split at h
      · exact Option.noConfusion h
      · rename_i mj hg
        exact convertMarketJson_shape loads (stringifyId mj) md
          (stringifyId_id_string mj) h

/-- Concrete Gamma-client behaviour for the C9 witness: numeric `id`,
JSON-string `clobTokenIds`. -/
def gammaExample : Int → Option (List (String × PyVal)) := fun _ =>
  some [("id", .pynum 511396), ("clobTokenIds", .pystr "[111, 222]"),
        ("question", .pystr "Will it happen?")]

/-- Concrete `json.loads` behaviour for the C9 witness. -/
def loadsExample : PyVal → Option PyVal := fun _ =>
  some (.pylist [.pynum 111, .pynum 222])

/-- The snapshot stored for the C9 witness inputs. -/
def mdExample : List (String × PyVal) :=
  [("id", .pystr (pyStrOf (.pynum 511396))),
   ("clobTokenIds", .pylist [.pystr (pyStrOf (.pynum 111)), .pystr (pyStrOf (.pynum 222))]),
   ("question", .pystr "Will it happen?")]

/-- Witness for C9 at a concrete fetched snapshot. -/
theorem market_data_ids_are_strings_check :
    ∃ s, PyVal.pystr (pyStrOf (.pynum 511396)) = PyVal.pystr s :=
  (market_data_ids_are_strings gammaExample loadsExample (some "511396") mdExample
    (by rfl)).1 (.pystr (pyStrOf (.pynum 511396))) (by rfl)

/-! ## Workflow entry and the pre-phase routing (graph.py 868-874, state.py)

`route_after_fetch` ends the workflow when `state.market_data` is falsy
(absent or an empty dict); otherwise it zeroes `loop_step` and enters the
research phase.  The phase-artifact fields of a fresh `State` default to
`None` and a failed fetch returns no `market_data` key, so the state
channel keeps its initial value. -/

/-- The slice of the LangGraph `State` needed for the pre-phase claims. -/
structure GraphState where
  loop_step : ℕ
  market_data : Option (List (String × PyVal))
  external_research_info : Option (List (String × PyVal))
  analysis_info : Option (List (String × PyVal))
  trade_info : Option (List (String × PyVal))

/-- A fresh `State` built from an `InputState`: counters at zero, every
optional artifact `None`. -/
def initialGraphState : GraphState :=
  ⟨0, none, none, none, none⟩

/-- Merge the update returned by `fetch_market_data` into the state: only
a present `market_data` key overwrites the channel. -/
def applyFetch (s : GraphState) (r : FetchResult) : GraphState :=
  match r.market_data with
  | some md => { s with market_data := some md }
  | none => s

/-- Truthiness of the optional `market_data` dict (`not state.market_data`). -/
def marketDataTruthy : Option (List (String × PyVal)) → Bool
  | none => false
  | some d => !d.isEmpty

/-- `route_after_fetch`: the route string together with the state as the
router leaves it (it zeroes `loop_step` only when research is entered). -/
def route_after_fetch (s : GraphState) : String × GraphState :=
  if !(marketDataTruthy s.market_data) then ("__end__", s)
  else ("research_agent", { s with loop_step := 0 })

/-! ## Claim C5 -/

/-- C5: a missing `market_id`, an unparsable market id, or a Gamma-client
exception each leave `market_data` unset with `proceed = False`; and
whenever no `market_data` was stored on a fresh run, `route_after_fetch`
ends the workflow immediately, with every phase artifact still absent. -/
theorem fetch_failure_ends_workflow :
    (∀ (getMarket : Int → Option (List (String × PyVal)))
        (loads : PyVal → Option PyVal) (market_id : Option String),
      (market_id = none ∨
        (∃ s, market_id = some s ∧ pyParseInt s = none) ∨
        (∃ s n, market_id = some s ∧ pyParseInt s = some n ∧ getMarket n = none)) →
      fetch_market_data getMarket loads market_id = ⟨false, none⟩) ∧
    (∀ r : FetchResult, r.market_data = none →
      (route_after_fetch (applyFetch initialGraphState r)).1 = "__end__" ∧
      (applyFetch initialGraphState r).external_research_info = none ∧
      (applyFetch initialGraphState r).analysis_info = none ∧
      (applyFetch initialGraphState r).trade_info = none) := by
  constructor
  · intro getMarket loads market_id hfail
    rcases hfail with rfl | ⟨s, rfl, hp⟩ | ⟨s, n, rfl, hp, hg⟩
    · rfl
    · simp only [fetch_market_data]
      rw [hp]
    · simp only [fetch_market_data]
      rw [hp]
      show (match getMarket n with
        | none => ({ proceed := false, market_data := none } : FetchResult)
        | some mj => convertMarketJson loads (stringifyId mj)) =
        ({ proceed := false, market_data := none } : FetchResult)
      rw [hg]
  · intro r hr
    have happ : applyFetch initialGraphState r = initialGraphState := by
      unfold applyFetch
      rw [hr]
    rw [happ]
    exact ⟨rfl, rfl, rfl, rfl⟩

/-- Witness for C5 at the concrete bad market id `"abc"`. -/
theorem fetch_failure_ends_workflow_check :
    fetch_market_data gammaExample loadsExample (some "abc") = ⟨false, none⟩ ∧
    (route_after_fetch (applyFetch initialGraphState ⟨false, none⟩)).1 = "__end__" := by
  constructor
  · exact fetch_failure_ends_workflow.1 gammaExample loadsExample (some "abc")
      (Or.inr (Or.inl ⟨"abc", rfl, by rfl⟩))
  · exact (fetch_failure_ends_workflow.2 ⟨false, none⟩ rfl).1

/-! ## Phase routing (graph.py 876-967)

The routers inspect the last conversation message.  `route_after_*_agent`
sends a turn whose first tool call is the phase terminal to reflection,
any other tool call to the phase's tool node, and a non-AI last message
back to the agent.  `route_after_reflect_on_research` / `..._analysis`
advance on a success-status tool message (writing `state.loop_step = 0` —
modelled at face value), abort at `loop_step ≥ max_loops` on an error
status, and retry otherwise.  `route_after_reflect_on_trade` ends on
success or exhausted budget without touching `loop_step`. -/

/-- The last message of the conversation, as the routers see it. -/
inductive LastMsg where
  | ai (toolCallNames : List String)
  | human
  | toolMsg (status : String)
  deriving DecidableEq

/-- The state slice the phase routers read (and, at face value, write). -/
structure PhaseState where
  loop_step : ℕ
  lastMsg : LastMsg
  deriving DecidableEq

/-- `route_after_research_agent`. -/
def route_after_research_agent (s : PhaseState) : String :=
  match s.lastMsg with
  | .ai tcs =>
    if tcs.head? = some "ExternalResearchInfo" then "reflect_on_research"
    else "research_tools"
  | _ => "research_agent"

/-- `route_after_reflect_on_research`: route plus the `loop_step` the router
leaves behind (it zeroes it exactly on the advance branch). -/
def route_after_reflect_on_research (maxLoops : ℕ) (s : PhaseState) : String × ℕ :=
  match s.lastMsg with
  | .toolMsg status =>
    if status = "success" then ("analysis_agent", 0)
    else if status = "error" then
      if maxLoops ≤ s.loop_step then ("__end__", s.loop_step)
      else ("research_agent", s.loop_step)
    else ("research_agent", s.loop_step)
  | _ => ("research_agent", s.loop_step)

/-- `route_after_analysis`. -/
def route_after_analysis (s : PhaseState) : String :=
  match s.lastMsg with
  | .ai tcs =>
    if tcs.head? = some "AnalysisInfo" then "reflect_on_analysis"
    else "analysis_tools"
  | _ => "analysis_agent"

/-- `route_after_reflect_on_analysis`. -/
def route_after_reflect_on_analysis (maxLoops : ℕ) (s : PhaseState) : String × ℕ :=
  match s.lastMsg with
  | .toolMsg status =>
    if status = "success" then ("trade_agent", 0)
    else if status = "error" then
      if maxLoops ≤ s.loop_step then ("__end__", s.loop_step)
      else ("analysis_agent", s.loop_step)
    else ("analysis_agent", s.loop_step)
  | _ => ("analysis_agent", s.loop_step)

/-- `route_after_trade` (uses `any`, not just the first call). -/
def route_after_trade (s : PhaseState) : String :=
  match s.lastMsg with
  | .ai tcs =>
    if tcs.any (fun n => n == "TradeDecision") then "reflect_on_trade"
    else "trade_tools"
  | _ => "trade_agent"

/-- `route_after_reflect_on_trade`: no `loop_step` assignment appears in the
source, so the router always leaves the counter unchanged. -/
def route_after_reflect_on_trade (maxLoops : ℕ) (s : PhaseState) : String × ℕ :=
  match s.lastMsg with
  | .toolMsg status =>
    if status = "success" then ("__end__", s.loop_step)
    else if maxLoops ≤ s.loop_step then ("__end__", s.loop_step)
    else ("trade_agent", s.loop_step)
  | _ => ("trade_agent", s.loop_step)

/-! ## Claim C6 -/

/-- C6 (amended): `loop_step` is zero immediately after the advance
transitions of the research and analysis validation steps; the
trade-phase acceptance transition (to `__end__`) leaves `loop_step`
untouched (no reset exists in `route_after_reflect_on_trade`). -/
theorem loop_step_reset_on_research_analysis_advance :
    (∀ (m : ℕ) (s : PhaseState),
      (route_after_reflect_on_research m s).1 = "analysis_agent" →
        (route_after_reflect_on_research m s).2 = 0) ∧
    (∀ (m : ℕ) (s : PhaseState),
      (route_after_reflect_on_analysis m s).1 = "trade_agent" →
        (route_after_reflect_on_analysis m s).2 = 0) ∧
    (∀ (m : ℕ) (s : PhaseState),
      (route_after_reflect_on_trade m s).2 = s.loop_step) := by
  refine ⟨?_, ?_, ?_⟩
  · intro m s h
    obtain ⟨ls, msg⟩ := s
    cases msg with
    | ai tcs => exact absurd h (by simp [route_after_reflect_on_research])
    | human => exact absurd h (by simp [route_after_reflect_on_research])
    | toolMsg status =>
      by_cases h1 : status = "success"
      · subst h1
        simp [route_after_reflect_on_research]
      · by_cases h2 : status = "error"
        · subst h2
          by_cases h3 : m ≤ ls
          · exact absurd h (by simp [route_after_reflect_on_research, h1, h3])
          · exact absurd h (by simp [route_after_reflect_on_research, h1, h3])
        · exact absurd h (by simp [route_after_reflect_on_research, h1, h2])
  · intro m s h
    obtain ⟨ls, msg⟩ := s
    cases msg with
    | ai tcs => exact absurd h (by simp [route_after_reflect_on_analysis])
    | human => exact absurd h (by simp [route_after_reflect_on_analysis])
    | toolMsg status =>
      by_cases h1 : status = "success"
      · subst h1
        simp [route_after_reflect_on_analysis]
      · by_cases h2 : status = "error"
        · subst h2
          by_cases h3 : m ≤ ls
          · exact absurd h (by simp [route_after_reflect_on_analysis, h1, h3])
          · exact absurd h (by simp [route_after_reflect_on_analysis, h1, h3])
        · exact absurd h (by simp [route_after_reflect_on_analysis, h1, h2])
  · intro m s
    obtain ⟨ls, msg⟩ := s
    cases msg with
    | ai tcs => rfl
    | human => rfl
    | toolMsg status =>
      by_cases h1 : status = "success"
      · subst h1
        simp [route_after_reflect_on_trade]
      · by_cases h3 : m ≤ ls
        · simp [route_after_reflect_on_trade, h1, h3]
        · simp [route_after_reflect_on_trade, h1, h3]

/-- Witness for C6's amended theorem at a concrete successful research
reflection. -/
theorem loop_step_reset_on_research_analysis_advance_check :
    (route_after_reflect_on_research defaultMaxLoops ⟨4, .toolMsg "success"⟩).2 = 0 :=
  loop_step_reset_on_research_analysis_advance.1 defaultMaxLoops
    ⟨4, .toolMsg "success"⟩ (by decide)

/-- C6 counterexample: after the trade phase's acceptance transition
(success status routes to `__end__`), `loop_step` is 3, not 0 — the claim
fails for the third validation step. -/
theorem trade_advance_keeps_loop_step :
    route_after_reflect_on_trade defaultMaxLoops ⟨3, .toolMsg "success"⟩ =
      ("__end__", 3) ∧ (3 : ℕ) ≠ 0 := by
  decide

/-! ## Phase sub-loops

A phase run is driven by a script of executor turns: each turn carries the
tool-call names the LLM emitted, whether the terminal tool's arguments are
truthy, and the verdict the structured-output judge would return for the
candidate.  Each executor invocation returns `loop_step + 1`
(graph.py 183, 454, 725); the reflection nodes emit a success-status tool
message exactly when the verdict holds AND the candidate is truthy
(graph.py 246, 536) — for the trade phase, when the verdict holds AND the
deterministic check passes (graph.py 830).  The second component of the
runner's result counts executor (`EXECUTE`) invocations. -/

/-- One executor turn of the research or analysis phase. -/
structure AgentTurn where
  toolCallNames : List String
  infoTruthy : Bool
  satisfactory : Bool
  deriving DecidableEq

/-- How a phase sub-loop ends (with the `loop_step` at that point). -/
inductive PhaseOutcome where
  | advanced (loop_step : ℕ)
  | aborted (loop_step : ℕ)
  | pending (loop_step : ℕ)
  deriving DecidableEq

/-- The last message after a research executor turn: the filtered response
if it still carries tool calls, otherwise the injected
"please call a tool" human message. -/
def researchTurnMsg (t : AgentTurn) : LastMsg :=
  if (researchFilteredCalls t.toolCallNames).isEmpty then .human
  else .ai (researchFilteredCalls t.toolCallNames)

/-- The status of the research reflection's tool message. -/
def researchStatus (t : AgentTurn) : String :=
  if t.satisfactory && t.infoTruthy then "success" else "error"

/-- The research sub-loop: executor, then `route_after_research_agent`,
then (on a terminal turn) the reflection and
`route_after_reflect_on_research`. -/
def runResearchPhase (maxLoops : ℕ) : ℕ → List AgentTurn → PhaseOutcome × ℕ
  | ls, [] => (.pending ls, 0)
  | ls, t :: rest =>
    if route_after_research_agent ⟨ls + 1, researchTurnMsg t⟩ = "reflect_on_research" then
      if (route_after_reflect_on_research maxLoops
            ⟨ls + 1, .toolMsg (researchStatus t)⟩).1 = "analysis_agent" then
        (.advanced (route_after_reflect_on_research maxLoops
            ⟨ls + 1, .toolMsg (researchStatus t)⟩).2, 1)
      else if (route_after_reflect_on_research maxLoops
            ⟨ls + 1, .toolMsg (researchStatus t)⟩).1 = "__end__" then
        (.aborted (route_after_reflect_on_research maxLoops
            ⟨ls + 1, .toolMsg (researchStatus t)⟩).2, 1)
      else
        ((runResearchPhase maxLoops (route_after_reflect_on_research maxLoops
            ⟨ls + 1, .toolMsg (researchStatus t)⟩).2 rest).1,
         (runResearchPhase maxLoops (route_after_reflect_on_research maxLoops
            ⟨ls + 1, .toolMsg (researchStatus t)⟩).2 rest).2 + 1)
    else
      ((runResearchPhase maxLoops (ls + 1) rest).1,
       (runResearchPhase maxLoops (ls + 1) rest).2 + 1)

/-- The last message after an analysis executor turn. -/
def analysisTurnMsg (t : AgentTurn) : LastMsg :=
  if (analysisFilteredCalls t.toolCallNames).isEmpty then .human
  else .ai (analysisFilteredCalls t.toolCallNames)

/-- The status of the analysis reflection's tool message. -/
def analysisStatus (t : AgentTurn) : String :=
  if t.satisfactory && t.infoTruthy then "success" else "error"

/-- The analysis sub-loop. -/
def runAnalysisPhase (maxLoops : ℕ) : ℕ → List AgentTurn → PhaseOutcome × ℕ
  | ls, [] => (.pending ls, 0)
  | ls, t :: rest =>
    if route_after_analysis ⟨ls + 1, analysisTurnMsg t⟩ = "reflect_on_analysis" then
      if (route_after_reflect_on_analysis maxLoops
            ⟨ls + 1, .toolMsg (analysisStatus t)⟩).1 = "trade_agent" then
        (.advanced (route_after_reflect_on_analysis maxLoops
            ⟨ls + 1, .toolMsg (analysisStatus t)⟩).2, 1)
      else if (route_after_reflect_on_analysis maxLoops
            ⟨ls + 1, .toolMsg (analysisStatus t)⟩).1 = "__end__" then
        (.aborted (route_after_reflect_on_analysis maxLoops
            ⟨ls + 1, .toolMsg (analysisStatus t)⟩).2, 1)
      else
        ((runAnalysisPhase maxLoops (route_after_reflect_on_analysis maxLoops
            ⟨ls + 1, .toolMsg (analysisStatus t)⟩).2 rest).1,
         (runAnalysisPhase maxLoops (route_after_reflect_on_analysis maxLoops
            ⟨ls + 1, .toolMsg (analysisStatus t)⟩).2 rest).2 + 1)
    else
      ((runAnalysisPhase maxLoops (ls + 1) rest).1,
       (runAnalysisPhase maxLoops (ls + 1) rest).2 + 1)

/-- One executor turn of the trade phase: the candidate's arguments feed
the deterministic check. -/
structure TradeTurn where
  toolCallNames : List String
  args : List (String × PyVal)
  satisfactory : Bool

/-- How the trade sub-loop ends: reaching `__end__`, running out of
script, or the reflection node raising (deterministic check `TypeError`). -/
inductive TradeOutcome where
  | ended (loop_step : ℕ)
  | pending (loop_step : ℕ)
  | crashed (loop_step : ℕ)
  deriving DecidableEq

/-- The last message after a trade executor turn. -/
def tradeTurnMsg (t : TradeTurn) : LastMsg :=
  if (tradeFilteredCalls t.toolCallNames).isEmpty then .human
  else .ai (tradeFilteredCalls t.toolCallNames)

/-- The status of the trade reflection's tool message, given the
deterministic check's result. -/
def tradeStatus (t : TradeTurn) (valid : Bool) : String :=
  if t.satisfactory && valid then "success" else "error"

/-- The trade sub-loop. -/
def runTradePhase (maxLoops : ℕ) (positions : Option (List (String × ℚ)))
    (funds : ℚ) : ℕ → List TradeTurn → TradeOutcome × ℕ
  | ls, [] => (.pending ls, 0)
  | ls, t :: rest =>
    if route_after_trade ⟨ls + 1, tradeTurnMsg t⟩ = "reflect_on_trade" then
      match deterministicTradeCheck (some t.args) positions funds with
      | none => (.crashed (ls + 1), 1)
      | some valid =>
        if (route_after_reflect_on_trade maxLoops
              ⟨ls + 1, .toolMsg (tradeStatus t valid)⟩).1
            = "__end__" then
          (.ended (route_after_reflect_on_trade maxLoops
              ⟨ls + 1, .toolMsg (tradeStatus t valid)⟩).2, 1)
        else
          ((runTradePhase maxLoops positions funds (route_after_reflect_on_trade maxLoops
              ⟨ls + 1, .toolMsg (tradeStatus t valid)⟩).2
              rest).1,
           (runTradePhase maxLoops positions funds (route_after_reflect_on_trade maxLoops
              ⟨ls + 1, .toolMsg (tradeStatus t valid)⟩).2
              rest).2 + 1)
    else
      ((runTradePhase maxLoops positions funds (ls + 1) rest).1,
       (runTradePhase maxLoops positions funds (ls + 1) rest).2 + 1)

/-! ## Claim C2 -/

/-- Helper: filtering for a present name puts that name first. -/
theorem filter_terminal_head (term : String) (tcs : List String) (h : term ∈ tcs) :
    (tcs.filter (fun n => n == term)).head? = some term := by
  induction tcs with
  | nil => cases h
  | cons a tl ih =>
    by_cases ha : a == term
    · have haa : a = term := by simpa using ha
      simp [List.filter, ha, haa]
    · rcases List.mem_cons.mp h with he | hm
      · exact absurd (by simp [he] : (a == term) = true) ha
      · simpa [List.filter, ha] using ih hm


/-- Helper: a research turn carrying the terminal call routes to
reflection. -/
theorem route_research_reflect (ls1 : ℕ) (t : AgentTurn)
    (h : "ExternalResearchInfo" ∈ t.toolCallNames) :
    route_after_research_agent ⟨ls1, researchTurnMsg t⟩ = "reflect_on_research" := by
  have hfil : researchFilteredCalls t.toolCallNames =
      t.toolCallNames.filter (fun n => n == "ExternalResearchInfo") := by
    unfold researchFilteredCalls filterTerminalCalls
    rw [if_pos (List.elem_eq_true_of_mem h)]
  have hhead := filter_terminal_head "ExternalResearchInfo" t.toolCallNames h
  unfold researchTurnMsg
  rw [hfil]
  cases hf : t.toolCallNames.filter (fun n => n == "ExternalResearchInfo") with
  | nil => rw [hf] at hhead; exact absurd hhead (by simp)
  | cons a as =>
    rw [hf] at hhead
    have ha : a = "ExternalResearchInfo" := by simpa using hhead
    simp [route_after_research_agent, ha]

/-- Helper: an analysis turn carrying the terminal call routes to
reflection. -/
theorem route_analysis_reflect (ls1 : ℕ) (t : AgentTurn)
    (h : "AnalysisInfo" ∈ t.toolCallNames) :
    route_after_analysis ⟨ls1, analysisTurnMsg t⟩ = "reflect_on_analysis" := by
  have hfil : analysisFilteredCalls t.toolCallNames =
      t.toolCallNames.filter (fun n => n == "AnalysisInfo") := by
    unfold analysisFilteredCalls filterTerminalCalls
    rw [if_pos (List.elem_eq_true_of_mem h)]
  have hhead := filter_terminal_head "AnalysisInfo" t.toolCallNames h
  unfold analysisTurnMsg
  rw [hfil]
  cases hf : t.toolCallNames.filter (fun n => n == "AnalysisInfo") with
  | nil => rw [hf] at hhead; exact absurd hhead (by simp)
  | cons a as =>
    rw [hf] at hhead
    have ha : a = "AnalysisInfo" := by simpa using hhead
    simp [route_after_analysis, ha]

/-- Helper: a trade turn carrying the terminal call routes to reflection. -/
theorem route_trade_reflect (ls1 : ℕ) (t : TradeTurn)
    (h : "TradeDecision" ∈ t.toolCallNames) :
    route_after_trade ⟨ls1, tradeTurnMsg t⟩ = "reflect_on_trade" := by
  have hfil : tradeFilteredCalls t.toolCallNames =
      t.toolCallNames.filter (fun n => n == "TradeDecision") := by
    unfold tradeFilteredCalls filterTerminalCalls
    rw [if_pos (List.elem_eq_true_of_mem h)]
  have hhead := filter_terminal_head "TradeDecision" t.toolCallNames h
  unfold tradeTurnMsg
  rw [hfil]
  cases hf : t.toolCallNames.filter (fun n => n == "TradeDecision") with
  | nil => rw [hf] at hhead; exact absurd hhead (by simp)
  | cons a as =>
    rw [hf] at hhead
    have ha : a = "TradeDecision" := by simpa using hhead
    simp [route_after_trade, ha]

/-- Helper: research-phase bound for terminal-only scripts, generalized
over the entry `loop_step`. -/
theorem runResearchPhase_le (m : ℕ) (turns : List AgentTurn) :
    ∀ ls, (∀ t ∈ turns, "ExternalResearchInfo" ∈ t.toolCallNames) →
      (runResearchPhase m ls turns).2 ≤ (m - ls) + 1 := by
  induction turns with
  | nil =>
    intro ls _
    simp [runResearchPhase]
  | cons t rest ih =>
    intro ls hall
    have hterm := hall t (by simp)
    have hroute := route_research_reflect (ls + 1) t hterm
    by_cases hs : (t.satisfactory && t.infoTruthy) = true
    · have hrr : route_after_reflect_on_research m ⟨ls + 1, .toolMsg (researchStatus t)⟩ =
          ("analysis_agent", 0) := by
        rw [show researchStatus t = "success" from by simp [researchStatus, hs]]
        simp [route_after_reflect_on_research]
      have hcount : (runResearchPhase m ls (t :: rest)).2 = 1 := by
        simp [runResearchPhase, hroute, hrr]
      rw [hcount]
      omega
    · have hst : researchStatus t = "error" := by
        simp only [researchStatus]
        rw [if_neg hs]
      by_cases hm : m ≤ ls + 1
      · have hrr : route_after_reflect_on_research m ⟨ls + 1, .toolMsg (researchStatus t)⟩ =
            ("__end__", ls + 1) := by
          rw [hst]
          simp [route_after_reflect_on_research, hm]
        have hcount : (runResearchPhase m ls (t :: rest)).2 = 1 := by
          simp [runResearchPhase, hroute, hrr]
        rw [hcount]
        omega
      · have hrr : route_after_reflect_on_research m ⟨ls + 1, .toolMsg (researchStatus t)⟩ =
            ("research_agent", ls + 1) := by
          rw [hst]
          simp [route_after_reflect_on_research, hm]
        have hrest := ih (ls + 1) (fun u hu => hall u (List.mem_cons_of_mem t hu))
        have hcount : (runResearchPhase m ls (t :: rest)).2 =
            (runResearchPhase m (ls + 1) rest).2 + 1 := by
          simp [runResearchPhase, hroute, hrr]
        rw [hcount]
        omega

/-- Helper: analysis-phase bound for terminal-only scripts. -/
theorem runAnalysisPhase_le (m : ℕ) (turns : List AgentTurn) :
    ∀ ls, (∀ t ∈ turns, "AnalysisInfo" ∈ t.toolCallNames) →
      (runAnalysisPhase m ls turns).2 ≤ (m - ls) + 1 := by
  induction turns with
  | nil =>
    intro ls _
    simp [runAnalysisPhase]
  | cons t rest ih =>
    intro ls hall
    have hterm := hall t (by simp)
    have hroute := route_analysis_reflect (ls + 1) t hterm
    by_cases hs : (t.satisfactory && t.infoTruthy) = true
    · have hrr : route_after_reflect_on_analysis m ⟨ls + 1, .toolMsg (analysisStatus t)⟩ =
          ("trade_agent", 0) := by
        rw [show analysisStatus t = "success" from by simp [analysisStatus, hs]]
        simp [route_after_reflect_on_analysis]
      have hcount : (runAnalysisPhase m ls (t :: rest)).2 = 1 := by
        simp [runAnalysisPhase, hroute, hrr]
      rw [hcount]
      omega
    · have hst : analysisStatus t = "error" := by
        simp only [analysisStatus]
        rw [if_neg hs]
      by_cases hm : m ≤ ls + 1
      · have hrr : route_after_reflect_on_analysis m ⟨ls + 1, .toolMsg (analysisStatus t)⟩ =
            ("__end__", ls + 1) := by
          rw [hst]
          simp [route_after_reflect_on_analysis, hm]
        have hcount : (runAnalysisPhase m ls (t :: rest)).2 = 1 := by
          simp [runAnalysisPhase, hroute, hrr]
        rw [hcount]
        omega
      · have hrr : route_after_reflect_on_analysis m ⟨ls + 1, .toolMsg (analysisStatus t)⟩ =
            ("analysis_agent", ls + 1) := by
          rw [hst]
          simp [route_after_reflect_on_analysis, hm]
        have hrest := ih (ls + 1) (fun u hu => hall u (List.mem_cons_of_mem t hu))
        have hcount : (runAnalysisPhase m ls (t :: rest)).2 =
            (runAnalysisPhase m (ls + 1) rest).2 + 1 := by
          simp [runAnalysisPhase, hroute, hrr]
        rw [hcount]
        omega

/-- Helper: trade-phase bound for terminal-only scripts. -/
theorem runTradePhase_le (m : ℕ) (positions : Option (List (String × ℚ))) (funds : ℚ)
    (turns : List TradeTurn) :
    ∀ ls, (∀ t ∈ turns, "TradeDecision" ∈ t.toolCallNames) →
      (runTradePhase m positions funds ls turns).2 ≤ (m - ls) + 1 := by
  induction turns with
  | nil =>
    intro ls _
    simp [runTradePhase]
  | cons t rest ih =>
    intro ls hall
    have hterm := hall t (by simp)
    have hroute := route_trade_reflect (ls + 1) t hterm
    cases hd : deterministicTradeCheck (some t.args) positions funds with
    | none =>
      have hcount : (runTradePhase m positions funds ls (t :: rest)).2 = 1 := by
        simp [runTradePhase, hroute, hd]
      rw [hcount]
      omega
    | some valid =>
      by_cases hs : (t.satisfactory && valid) = true
      · have hrr : route_after_reflect_on_trade m
            ⟨ls + 1, .toolMsg (tradeStatus t valid)⟩ =
            ("__end__", ls + 1) := by
          rw [show tradeStatus t valid = "success" from by simp [tradeStatus, hs]]
          simp [route_after_reflect_on_trade]
        have hcount : (runTradePhase m positions funds ls (t :: rest)).2 = 1 := by
          simp [runTradePhase, hroute, hd, hrr]
        rw [hcount]
        omega
      · have hst : tradeStatus t valid = "error" := by
          simp only [tradeStatus]
          rw [if_neg hs]
        by_cases hm : m ≤ ls + 1
        · have hrr : route_after_reflect_on_trade m
              ⟨ls + 1, .toolMsg (tradeStatus t valid)⟩ =
              ("__end__", ls + 1) := by
            rw [hst]
            simp [route_after_reflect_on_trade, hm]
          have hcount : (runTradePhase m positions funds ls (t :: rest)).2 = 1 := by
            simp [runTradePhase, hroute, hd, hrr]
          rw [hcount]
          omega
        · have hrr : route_after_reflect_on_trade m
              ⟨ls + 1, .toolMsg (tradeStatus t valid)⟩ =
              ("trade_agent", ls + 1) := by
            rw [hst]
            simp [route_after_reflect_on_trade, hm]
          have hrest := ih (ls + 1) (fun u hu => hall u (List.mem_cons_of_mem t hu))
          have hcount : (runTradePhase m positions funds ls (t :: rest)).2 =
              (runTradePhase m positions funds (ls + 1) rest).2 + 1 := by
            simp [runTradePhase, hroute, hd, hrr]
          rw [hcount]
          omega

/-- C2 (amended): when every executor turn of a phase submits the phase's
terminal candidate, the number of `EXECUTE` invocations before the phase
advances or aborts is at most `max_loops + 1`.  The unrestricted claim is
false: `loop_step` also counts executor invocations spent on capability
tool calls, the abort test only runs at a reflection step, so a script of
tool-call turns followed by one rejected submission exceeds the bound (see
the counterexample). -/
theorem loop_bound_for_terminal_scripts :
    (∀ (m : ℕ) (turns : List AgentTurn),
      (∀ t ∈ turns, "ExternalResearchInfo" ∈ t.toolCallNames) →
      (runResearchPhase m 0 turns).2 ≤ m + 1) ∧
    (∀ (m : ℕ) (turns : List AgentTurn),
      (∀ t ∈ turns, "AnalysisInfo" ∈ t.toolCallNames) →
      (runAnalysisPhase m 0 turns).2 ≤ m + 1) ∧
    (∀ (m : ℕ) (positions : Option (List (String × ℚ))) (funds : ℚ)
        (turns : List TradeTurn),
      (∀ t ∈ turns, "TradeDecision" ∈ t.toolCallNames) →
      (runTradePhase m positions funds 0 turns).2 ≤ m + 1) := by
  refine ⟨?_, ?_, ?_⟩
  · intro m turns hall
    simpa using runResearchPhase_le m turns 0 hall
  · intro m turns hall
    simpa using runAnalysisPhase_le m turns 0 hall
  · intro m positions funds turns hall
    simpa using runTradePhase_le m positions funds turns 0 hall

/-- Witness for C2's amended theorem: a single submitting turn stays within
the default budget. -/
theorem loop_bound_for_terminal_scripts_check :
    (runResearchPhase defaultMaxLoops 0 [⟨["ExternalResearchInfo"], true, true⟩]).2 ≤
      defaultMaxLoops + 1 :=
  loop_bound_for_terminal_scripts.1 defaultMaxLoops
    [⟨["ExternalResearchInfo"], true, true⟩] (by decide)

/-- Seven tool-call turns, then one rejected submission. -/
def overloadedResearchScript : List AgentTurn :=
  List.replicate 7 ⟨["search_exa"], false, false⟩ ++
    [⟨["ExternalResearchInfo"], true, false⟩]

/-- C2 counterexample: with the default `max_loops = 6`, the research phase
runs 8 executor (`EXECUTE`) invocations before aborting — exceeding the
claimed `max_loops + 1 = 7` — because the seven tool-call cycles never
reach the abort test yet each increments `loop_step`. -/
theorem loop_budget_exceeded_by_tool_cycles :
    (runResearchPhase defaultMaxLoops 0 overloadedResearchScript).1 =
      .aborted 8 ∧
    (runResearchPhase defaultMaxLoops 0 overloadedResearchScript).2 = 8 ∧
    defaultMaxLoops + 1 < 8 := by
  decide

/-! ## Analysis capability tools (tools.py 165-441)

Each tool wraps its body in `try/except Exception` and returns a dict in
both arms.  External collaborators are again function arguments returning
`Option` values (`none` = raises): the CLOB client's orderbook and
last-trade lookups, the trade-events lookup, `json.loads`, `float` on
strings, and the Exa search wrapper. -/

/-- An order of a CLOB orderbook level (the client returns string fields). -/
structure ClobOrder where
  price : String
  size : String

/-- A CLOB orderbook (bids and asks). -/
structure ClobBook where
  bids : List ClobOrder
  asks : List ClobOrder

/-- `{"price": float(order.price) if order.price else 0, "size": ...}`:
an empty (falsy) string yields `0`, otherwise `float` parses — and can
raise. -/
def orderEntry (fs : String → Option ℚ) (o : ClobOrder) : Option (ℚ × ℚ) := do
  let p ← if o.price.isEmpty then some 0 else fs o.price
  let s ← if o.size.isEmpty then some 0 else fs o.size
  some (p, s)

/-- Render an optional float (`None` ⇒ `pynone`). -/
def optNum : Option ℚ → PyVal
  | some q => .pynum q
  | none => .pynone

/-- The per-token loop of `analysis_get_multi_level_orderbook`, carrying
the enumeration index used to index `last_trades`. -/
def orderbookEntries (fs : String → Option ℚ) (levels : ℕ) (lts : List PyVal) :
    ℕ → List (String × ClobBook) →
    Option (List (String × PyVal) × List (String × PyVal))
  | _, [] => some ([], [])
  | i, (tid, ob) :: rest => do
    let tb ← (ob.bids.take levels).mapM (orderEntry fs)
    let ta ← (ob.asks.take levels).mapM (orderEntry fs)
    let bestBid := tb.head?.map (fun p => p.1)
    let bestAsk := ta.head?.map (fun p => p.1)
    let bidDepth := (tb.map (fun p => p.2)).sum
    let askDepth := (ta.map (fun p => p.2)).sum
    let mid : Option ℚ := match bestBid, bestAsk with
      | some b, some a => some ((b + a) / 2)
      | _, _ => none
    let spread : Option ℚ := match bestBid, bestAsk with
      | some b, some a => if a ≠ 0 ∧ b ≠ 0 then some (a - b) else none
      | _, _ => none
    let obEntry := PyVal.pyodict
      [("top_bids", .pylist (tb.map (fun p =>
          .pyodict [("price", .pynum p.1), ("size", .pynum p.2)]))),
       ("top_asks", .pylist (ta.map (fun p =>
          .pyodict [("price", .pynum p.1), ("size", .pynum p.2)]))),
       ("depth", .pyodict [("bid_depth", .pynum bidDepth),
          ("ask_depth", .pynum askDepth),
          ("total_depth", .pynum (bidDepth + askDepth))])]
    let statEntry := PyVal.pyodict
      [("best_bid", optNum bestBid), ("best_ask", optNum bestAsk),
       ("mid_price", optNum mid), ("spread", optNum spread),
       ("last_trade", (lts.get? i).getD .pynone),
       ("is_liquid", .pybool (decide (1000 < bidDepth + askDepth)))]
    let r ← orderbookEntries fs levels lts (i + 1) rest
    some ((tid, obEntry) :: r.1, (tid, statEntry) :: r.2)

/-- The `try` body of `analysis_get_multi_level_orderbook` after the
empty-input early return. -/
def multiOrderbookBody (fs : String → Option ℚ)
    (getOrderbooks : Option (List ClobBook)) (getLastTrades : Option (List PyVal))
    (token_ids : List String) (levels : ℕ) : Option (List (String × PyVal)) := do
  let obs ← getOrderbooks
  let lts ← getLastTrades
  let entries ← orderbookEntries fs levels lts 0 (token_ids.zip obs)
  some [("token_ids", .pylist (token_ids.map .pystr)),
        ("orderbooks", .pyodict entries.1),
        ("market_stats", .pyodict entries.2)]

/-- `analysis_get_multi_level_orderbook`: always returns a dict; a raised
body is converted to an error dict carrying the token ids. -/
def analysis_get_multi_level_orderbook (fs : String → Option ℚ)
    (getOrderbooks : Option (List ClobBook)) (getLastTrades : Option (List PyVal))
    (token_ids : List String) (levels : ℕ) : List (String × PyVal) :=
  if token_ids.isEmpty then
    [("error", .pystr "No token IDs provided"), ("token_ids", .pylist [])]
  else
    match multiOrderbookBody fs getOrderbooks getLastTrades token_ids levels with
    | some d => d
    | none =>
      [("error", .pystr "Failed to analyze orderbooks"),
       ("token_ids", .pylist (token_ids.map .pystr))]

/-- The `try` body of `analysis_get_market_trades`. -/
def marketTradesBody (fs : String → Option ℚ) (loads : PyVal → Option PyVal)
    (getTradesEvents : Option (List PyVal))
    (getLastTrades : Option (List (List (String × PyVal))))
    (market_data : Option (List (String × PyVal))) (market_id : String) :
    Option (List (String × PyVal)) := do
  let trades ← getTradesEvents
  let _ ← match market_data with
    | some md => do
        let l ← loads (dGetD md "clobTokenIds" (.pystr "[]"))
        pyIter l
    | none => some []
  let lts ← getLastTrades
  let processed ← lts.mapM (fun tr => do
      let k ← dGetItem tr "token_id"
      let ks ← (match k with | .pystr s => some s | _ => none)
      let pv ← dGetItem tr "price"
      let p ← pyFloat fs pv
      let sd ← dGetItem tr "side"
      some (ks, PyVal.pyodict [("price", .pynum p), ("side", sd)]))
  some [("market_id", .pystr market_id), ("trades", .pylist trades),
        ("last_trades", .pyodict processed),
        ("trade_summary", .pyodict [("total_trades", .pynum trades.length)])]

/-- `analysis_get_market_trades`. -/
def analysis_get_market_trades (fs : String → Option ℚ) (loads : PyVal → Option PyVal)
    (getTradesEvents : Option (List PyVal))
    (getLastTrades : Option (List (List (String × PyVal))))
    (market_data : Option (List (String × PyVal))) (market_id : String) :
    List (String × PyVal) :=
  match marketTradesBody fs loads getTradesEvents getLastTrades market_data market_id with
  | some d => d
  | none =>
    [("error", .pystr "error"), ("market_id", .pystr market_id),
     ("trades", .pylist [])]

/-- Python subscription `v[k]` for a string key: only dicts support it
(`KeyError` when absent, `TypeError` otherwise — both `none`). -/
def pyValGetItem : PyVal → String → Option PyVal
  | .pyodict d, k => dGet d k
  | _, _ => none

/-- The inner per-token `try` of `analysis_get_historical_trends`: a raise
skips the rest of that token's processing, keeping whatever was already
appended. -/
def tokenHistoryStep (fs : String → Option ℚ) (gltp : PyVal → Option PyVal)
    (gmte : Option (List PyVal)) (acc : List PyVal × List PyVal) (tok : PyVal) :
    List PyVal × List PyVal :=
  match gltp tok with
  | none => acc
  | some lt =>
    let phStep : Option (List PyVal) :=
      if pyTruthy lt then
        match (do
            let pv ← pyValGetItem lt "price"
            let p ← pyFloat fs pv
            let sd ← pyValGetItem lt "side"
            some (PyVal.pyodict [("token_id", tok), ("last_price", .pynum p),
              ("side", sd)])) with
        | none => none
        | some e => some (acc.1 ++ [e])
      else some acc.1
    match phStep with
    | none => acc
    | some ph1 =>
      match gmte with
      | none => (ph1, acc.2)
      | some trades =>
        if trades.isEmpty then (ph1, acc.2)
        else (ph1, acc.2 ++
          [PyVal.pyodict [("token_id", tok), ("trades", .pylist trades)]])

/-- The `try` body of `analysis_get_historical_trends` for a present
`market_data`. -/
def historicalTrendsBody (fs : String → Option ℚ) (loads : PyVal → Option PyVal)
    (searchExa : String → Option (List (List (String × PyVal))))
    (gltp : PyVal → Option PyVal) (gmte : Option (List PyVal)) (now : String)
    (md : List (String × PyVal)) (market_id : String) :
    Option (List (String × PyVal)) := do
  let outcomes ← loads (dGetD md "outcomes" (.pystr "[]"))
  let outcome_prices ← loads (dGetD md "outcomePrices" (.pystr "[]"))
  let query ←
    if pyTruthy outcomes then do
      let es ← pyIter outcomes
      let strs ← strList es
      some ("News and analysis about: " ++ pyStrOf (dGetD md "question" (.pystr ""))
        ++ " Possible outcomes: " ++ String.intercalate ", " strs)
    else
      some ("News and analysis about: " ++ pyStrOf (dGetD md "question" (.pystr "")))
  let search_results ← searchExa query
  let tokens ← (do
    let l ← loads (dGetD md "clobTokenIds" (.pystr "[]"))
    pyIter l)
  let hist := tokens.foldl (tokenHistoryStep fs gltp gmte) ([], [])
  let sentiment := if search_results.isEmpty then [] else
    search_results.map (fun r => PyVal.pyodict
      [("title", dGetD r "title" (.pystr "")), ("date", dGetD r "date" (.pystr "")),
       ("snippet", dGetD r "snippet" (.pystr "")), ("url", dGetD r "url" (.pystr ""))])
  let totalTrades : ℕ := (hist.2.map (fun th => match pyValGetItem th "trades" with
      | some (.pylist l) => l.length
      | _ => 0)).sum
  some [("market_id", .pystr market_id),
        ("market_data", .pyodict
          [("question", dGetD md "question" (.pystr "")),
           ("outcomes", outcomes), ("outcome_prices", outcome_prices),
           ("price_history", .pylist hist.1), ("trade_history", .pylist hist.2)]),
        ("news_sentiment", .pylist sentiment),
        ("analysis_summary", .pyodict
          [("total_news_articles", .pynum sentiment.length),
           ("total_trades", .pynum totalTrades),
           ("current_prices", outcome_prices),
           ("timestamp", .pystr now)])]

/-- `analysis_get_historical_trends`. -/
def analysis_get_historical_trends (fs : String → Option ℚ)
    (loads : PyVal → Option PyVal)
    (searchExa : String → Option (List (List (String × PyVal))))
    (gltp : PyVal → Option PyVal) (gmte : Option (List PyVal)) (now : String)
    (market_data : Option (List (String × PyVal))) (market_id : String) :
    List (String × PyVal) :=
  match market_data with
  | none =>
    [("error", .pystr "No market data available"),
     ("market_id", .pystr market_id), ("historical_data", .pylist [])]
  | some md =>
    match historicalTrendsBody fs loads searchExa gltp gmte now md market_id with
    | some d => d
    | none =>
      [("error", .pystr "error"), ("market_id", .pystr market_id),
       ("historical_data", .pylist [])]

/-- `analysis_get_external_news`. -/
def analysis_get_external_news
    (searchExa : String → Option (List (List (String × PyVal))))
    (market_id : String) : List (String × PyVal) :=
  match searchExa ("News or coverage regarding Polymarket market ID " ++ market_id) with
  | some results =>
    [("market_id", .pystr market_id),
     ("external_news", .pylist (results.map PyVal.pyodict)),
     ("note", .pystr "Mock external news data from exa search.")]
  | none =>
    [("error", .pystr "error"), ("market_id", .pystr market_id),
     ("external_news", .pylist [])]

/-! ## Claim C10 -/

/-- C10 (amended): all four analysis tools always return a dict, and any
exception reaching a tool's outer `try` is converted into a dict holding
an `error` key alongside the requested market/token identifiers — for the
orderbook tool when either CLOB lookup raises, for the trades tool when
the events lookup raises, for the trends tool when the search provider
raises (and for an absent market snapshot), and for the news tool when
the search provider raises.  (The per-token history fetches inside
`analysis_get_historical_trends` are caught by an inner handler and
skipped without adding an `error` key; see the counterexample.) -/
theorem analysis_tools_error_dicts :
    (∀ (fs : String → Option ℚ) (gob : Option (List ClobBook))
        (glt : Option (List PyVal)) (tids : List String) (lv : ℕ),
      tids ≠ [] → (gob = none ∨ glt = none) →
      dGet (analysis_get_multi_level_orderbook fs gob glt tids lv) "error" =
        some (.pystr "Failed to analyze orderbooks") ∧
      dGet (analysis_get_multi_level_orderbook fs gob glt tids lv) "token_ids" =
        some (.pylist (tids.map .pystr))) ∧
    (∀ (fs : String → Option ℚ) (loads : PyVal → Option PyVal)
        (glt : Option (List (List (String × PyVal))))
        (md : Option (List (String × PyVal))) (mid : String),
      dGet (analysis_get_market_trades fs loads none glt md mid) "error" =
        some (.pystr "error") ∧
      dGet (analysis_get_market_trades fs loads none glt md mid) "market_id" =
        some (.pystr mid)) ∧
    (∀ (fs : String → Option ℚ) (loads : PyVal → Option PyVal)
        (searchExa : String → Option (List (List (String × PyVal))))
        (gltp : PyVal → Option PyVal) (gmte : Option (List PyVal)) (now : String)
        (md : List (String × PyVal)) (mid : String),
      (∀ q, searchExa q = none) →
      dGet (analysis_get_historical_trends fs loads searchExa gltp gmte now
        (some md) mid) "error" = some (.pystr "error") ∧
      dGet (analysis_get_historical_trends fs loads searchExa gltp gmte now
        (some md) mid) "market_id" = some (.pystr mid)) ∧
    (∀ (fs : String → Option ℚ) (loads : PyVal → Option PyVal)
        (searchExa : String → Option (List (List (String × PyVal))))
        (gltp : PyVal → Option PyVal) (gmte : Option (List PyVal)) (now : String)
        (mid : String),
      dGet (analysis_get_historical_trends fs loads searchExa gltp gmte now
        none mid) "error" = some (.pystr "No market data available") ∧
      dGet (analysis_get_historical_trends fs loads searchExa gltp gmte now
        none mid) "market_id" = some (.pystr mid)) ∧
    (∀ (searchExa : String → Option (List (List (String × PyVal)))) (mid : String),
      (∀ q, searchExa q = none) →
      dGet (analysis_get_external_news searchExa mid) "error" =
        some (.pystr "error") ∧
      dGet (analysis_get_external_news searchExa mid) "market_id" =
        some (.pystr mid)) := by
  refine ⟨?_, ?_, ?_, ?_, ?_⟩
  · intro fs gob glt tids lv hne hfail
    have hbody : multiOrderbookBody fs gob glt tids lv = none := by
      rcases hfail with rfl | rfl
      · rfl
      · cases gob with
        | none => rfl
        | some obs => rfl
    cases tids with
    | nil => exact absurd rfl hne
    | cons a l =>
      unfold analysis_get_multi_level_orderbook
      rw [if_neg (by simp)]
      rw [hbody]
      exact ⟨rfl, rfl⟩
  · intro fs loads glt md mid
    have hbody : marketTradesBody fs loads none glt md mid = none := rfl
    unfold analysis_get_market_trades
    rw [hbody]
    exact ⟨rfl, rfl⟩
  · intro fs loads searchExa gltp gmte now md mid hse
    have hbody : historicalTrendsBody fs loads searchExa gltp gmte now md mid = none := by
      unfold historicalTrendsBody
      cases h1 : loads (dGetD md "outcomes" (.pystr "[]")) with
      | none => simp [h1]
      | some oc =>
        cases h2 : loads (dGetD md "outcomePrices" (.pystr "[]")) with
        | none => simp [h1, h2]
        | some op =>
          by_cases ht : pyTruthy oc = true
          · cases h3 : pyIter oc with
            | none => simp [h1, h2, ht, h3]
            | some es =>
              cases h4 : strList es with
              | none => simp [h1, h2, ht, h3, h4]
              | some strs => simp [h1, h2, ht, h3, h4, hse]
          · simp [h1, h2, ht, hse]
    simp only [analysis_get_historical_trends]
    rw [hbody]
    exact ⟨rfl, rfl⟩
  · intro fs loads searchExa gltp gmte now mid
    exact ⟨rfl, rfl⟩
  · intro searchExa mid hse
    unfold analysis_get_external_news
    rw [hse ("News or coverage regarding Polymarket market ID " ++ mid)]
    exact ⟨rfl, rfl⟩

/-- A never-succeeding float parser, for concrete instantiations. -/
def fsNone : String → Option ℚ := fun _ => none

/-- A concrete `json.loads` for the trends counterexample: the
`clobTokenIds` JSON text parses to one token, everything else to `[]`. -/
def loadsTrendsExample : PyVal → Option PyVal := fun v =>
  match v with
  | .pystr "[\x22t1\x22]" => some (.pylist [.pystr "t1"])
  | _ => some (.pylist [])

/-- A search provider returning zero results (successfully). -/
def searchExaEmpty : String → Option (List (List (String × PyVal))) := fun _ =>
  some []

/-- A last-trade-price lookup that always raises. -/
def gltpRaise : PyVal → Option PyVal := fun _ => none

/-- A market snapshot for the trends counterexample. -/
def mdTrendsExample : List (String × PyVal) :=
  [("question", .pystr "Q?"), ("outcomes", .pystr "[]"),
   ("outcomePrices", .pystr "[]"), ("clobTokenIds", .pystr "[\x22t1\x22]")]

/-- Witness for C10's amended theorem: the trades tool with a raising
events lookup at concrete inputs. -/
theorem analysis_tools_error_dicts_check :
    dGet (analysis_get_market_trades fsNone loadsTrendsExample none (some [])
      none "42") "error" = some (.pystr "error") ∧
    dGet (analysis_get_market_trades fsNone loadsTrendsExample none (some [])
      none "42") "market_id" = some (.pystr "42") :=
  analysis_tools_error_dicts.2.1 fsNone loadsTrendsExample (some []) none "42"

/-- C10 counterexample: inside `analysis_get_historical_trends` the
per-token `get_last_trade_price` call raises (here: on token `"t1"`), the
inner handler swallows it, and the returned dict carries NO `error` key —
the exception is not converted into an error-keyed dict as the claim
demands. -/
theorem trends_inner_error_not_reported :
    dGet (analysis_get_historical_trends fsNone loadsTrendsExample searchExaEmpty
      gltpRaise (some []) "T" (some mdTrendsExample) "42") "error" = none ∧
    gltpRaise (.pystr "t1") = none := by
  exact ⟨rfl, rfl⟩

end Polytrader
